import Mathlib

/-
Verification of the authoritative game-state engine of the I_like_trains
server (src/server/game.py): world sizing, spawn safety, passenger
population control, and train lifecycle.

Python integers are modelled as Int; Python floor division (the binary
operator in the source) is Int division, which in this toolchain is
euclidean division and agrees with Python for the positive divisors used
here; Python modulo is Int emod.  The trains dict is modelled as an
insertion-ordered association list, matching Python dict semantics
(assignment to an existing key overwrites in place, assignment to a new
key appends, pop removes).  Randomness (random.randint) and fresh
Passenger construction are modelled by explicit oracle arguments so that
every behaviour the random generator could produce is quantified over.

The Train and Passenger classes (train.py / passenger.py) are not part of
the sources; where their behaviour matters it is modelled from the spec
(sections 3, 4.4 and 4.5) and marked as such.
-/

/-- Grid coordinate: an integer pair, as in the source. -/
abbrev Pos := Int × Int

/-- Heading of a train, one of the four axis directions (spec section 3:
direction is one of UP, DOWN, LEFT, RIGHT). -/
inductive Dir where
  | up
  | down
  | left
  | right
deriving DecidableEq, Repr

/-- Modelled from the spec: the unit grid vector of a heading (spec 4.5
step 1, the head advances one grid cell in the current direction). -/
def Dir.vec : Dir → Pos
  | .up => (0, -1)
  | .down => (0, 1)
  | .left => (-1, 0)
  | .right => (1, 0)

/-- True for the headings that move along the x axis. -/
def Dir.isHorizontal : Dir → Bool
  | .left => true
  | .right => true
  | .up => false
  | .down => false

/-- Modelled from the spec: the Train entity (train.py is not in the
sources).  Spec section 3: head position, heading, queued direction
change applied at the next tick, ordered wagon chain, alive flag. -/
structure Train where
  position : Pos
  direction : Dir
  pending : Option Dir
  wagons : List Pos
  alive : Bool
deriving DecidableEq, Repr

/-- Modelled from the spec: a Passenger is a point entity with a grid
position (passenger.py is not in the sources); only its position is
ever consulted by the engine code under verification. -/
structure Passenger where
  position : Pos
deriving DecidableEq, Repr

/-- ORIGINAL_SCREEN_WIDTH from game.py. -/
def ORIGINAL_SCREEN_WIDTH : Int := 200

/-- ORIGINAL_SCREEN_HEIGHT from game.py. -/
def ORIGINAL_SCREEN_HEIGHT : Int := 200

/-- The engine state: the fields of the Game class of game.py that the
engine operations read or write (screen bounds, grid size, the trains
dict, the passenger list, padding and the spawn safe zone). -/
structure Game where
  screen_width : Int
  screen_height : Int
  grid_size : Int
  trains : List (String × Train)
  passengers : List Passenger
  screen_padding : Int
  spawn_safe_zone : Int
deriving DecidableEq, Repr

/-- Game.__init__ (game.py lines 42-54): 200 x 200 world, grid size 20,
no trains, no passengers, padding 100, spawn safe zone 3 cells. -/
def Game.init : Game :=
  { screen_width := ORIGINAL_SCREEN_WIDTH
    screen_height := ORIGINAL_SCREEN_HEIGHT
    grid_size := 20
    trains := []
    passengers := []
    screen_padding := 100
    spawn_safe_zone := 3 }

/-- Python dict assignment d[k] = v: overwrite in place when the key is
present, append when it is new. -/
def dictInsert (m : List (String × Train)) (k : String) (v : Train) :
    List (String × Train) :=
  if (m.lookup k).isSome then
    m.map (fun p => if p.1 = k then (k, v) else p)
  else
    m ++ [(k, v)]

/-- Game.is_position_safe (game.py lines 63-89): a candidate is unsafe
when it is within safe_distance of a border, or when both coordinate
distances to some train head or wagon are below safe_distance. -/
def is_position_safe (g : Game) (x y : Int) : Bool :=
  let sd := g.grid_size * g.spawn_safe_zone
  if x < sd ∨ y < sd ∨ g.screen_width - sd < x ∨ g.screen_height - sd < y then
    false
  else
    g.trains.all fun nt =>
      (!(decide (|nt.2.position.1 - x| < sd) && decide (|nt.2.position.2 - y| < sd))) &&
      nt.2.wagons.all fun wp =>
        !(decide (|wp.1 - x| < sd) && decide (|wp.2 - y| < sd))

/-- random.randint(lo, hi): Python raises ValueError when hi < lo (empty
range), modelled as none; otherwise it returns some value in [lo, hi],
here selected by the oracle value r. -/
def randint (lo hi : Int) (r : Nat) : Option Int :=
  if hi < lo then none else some (lo + (r : Int) % (hi - lo + 1))

/-- The attempt loop of Game.get_safe_spawn_position (game.py lines
103-110), with fuel counting the remaining attempts and k indexing the
oracle.  The outer Option is exception propagation from randint; the
inner Option is whether a safe position was found within the fuel. -/
def findSpawn (g : Game) (rnd : Nat → Nat × Nat) : Nat → Nat → Option (Option Pos)
  | 0, _ => some none
  | fuel + 1, k =>
    match randint g.spawn_safe_zone (g.screen_width / g.grid_size - g.spawn_safe_zone) (rnd k).1,
          randint g.spawn_safe_zone (g.screen_height / g.grid_size - g.spawn_safe_zone) (rnd k).2 with
    | some rx, some ry =>
      let x := rx * g.grid_size
      let y := ry * g.grid_size
      if is_position_safe g x y then some (some (x, y)) else findSpawn g rnd fuel (k + 1)
    | _, _ => none

/-- Game.get_safe_spawn_position (game.py lines 99-116): up to 100
sampled attempts, then the grid-aligned centre as fallback; none models
the ValueError escaping from randint on an empty sampling range. -/
def get_safe_spawn_position (g : Game) (rnd : Nat → Nat × Nat) : Option Pos :=
  match findSpawn g rnd 100 0 with
  | none => none
  | some (some p) => some p
  | some none =>
    some ((g.screen_width / 2) / g.grid_size * g.grid_size,
          (g.screen_height / 2) / g.grid_size * g.grid_size)

/-- The first while loop of Game.update_passengers_count (game.py lines
126-129): append fresh passengers while the list is shorter than
desired.  Each iteration grows the list by one, so the loop runs exactly
desired - length times; that trip count is the structural argument and k
indexes the fresh-passenger oracle. -/
def addPassengers (fresh : Nat → Passenger) (ps : List Passenger) (k : Nat) :
    Nat → List Passenger
  | 0 => ps
  | missing + 1 => addPassengers fresh (ps ++ [fresh k]) (k + 1) missing

/-- The second while loop of Game.update_passengers_count (game.py lines
132-133): list.pop() removes the last element while the list is longer
than desired.  Each iteration shrinks the list by one, so the loop runs
exactly length - desired times; that trip count is the structural
argument. -/
def dropPassengers (ps : List Passenger) : Nat → List Passenger
  | 0 => ps
  | surplus + 1 => dropPassengers ps.dropLast surplus

/-- Game.update_passengers_count (game.py lines 118-134).  The desired
count in the source is max(1, int(nTrains * 0.5)); for the natural
numbers arising as dict sizes, int(n * 0.5) equals n / 2 in natural
division (the float product n * 0.5 is exact and int truncates). -/
def update_passengers_count (nTrains : Nat) (ps : List Passenger) (fresh : Nat → Passenger) :
    List Passenger :=
  let desired := max 1 (nTrains / 2)
  let ps1 := addPassengers fresh ps 0 (desired - ps.length)
  dropPassengers ps1 (ps1.length - desired)

/-- Game.update_screen_size (game.py lines 219-222): unconditionally
grow both bounds by one padding increment. -/
def update_screen_size (g : Game) : Game :=
  { g with
    screen_width := g.screen_width + g.screen_padding
    screen_height := g.screen_height + g.screen_padding }

/-- The spawn oracle consumed by add_train: the randint draws, the fresh
passengers, and the initial heading of the constructed Train (the Train
constructor is not in the sources; the spec only fixes the heading to be
one of the four directions, so it is an oracle input). -/
structure Oracle where
  rnd : Nat → Nat × Nat
  dir : Dir
  fresh : Nat → Passenger

/-- Game.add_train (game.py lines 136-149): compute a spawn position,
assign a fresh Train into the dict (overwriting any existing entry with
the same key, per Python dict assignment), recompute the passenger
count, then grow the screen.  none models the randint ValueError
escaping; no state is mutated before that raise, so the caller observes
the unchanged state. -/
def add_train (g : Game) (name : String) (o : Oracle) : Option Game :=
  match get_safe_spawn_position g o.rnd with
  | none => none
  | some pos =>
    let t : Train :=
      { position := pos, direction := o.dir, pending := none, wagons := [], alive := true }
    let g1 := { g with trains := dictInsert g.trains name t }
    let g2 := { g1 with
                passengers := update_passengers_count g1.trains.length g1.passengers o.fresh }
    some (update_screen_size g2)

/-- add_train as a state transformer: on the exception path the state is
unchanged (the raise happens before any mutation). -/
def add_train_total (g : Game) (name : String) (o : Oracle) : Game :=
  (add_train g name o).getD g

/-- Game.can_reduce_padding (game.py lines 177-189): false when some
train head or wagon coordinate is at least bound - padding - 50 on the
corresponding axis; otherwise true. -/
def can_reduce_padding (g : Game) : Bool :=
  g.trains.all fun nt =>
    (!(decide (g.screen_width - g.screen_padding - 50 ≤ nt.2.position.1) ||
       decide (g.screen_height - g.screen_padding - 50 ≤ nt.2.position.2))) &&
    nt.2.wagons.all fun wp =>
      !(decide (g.screen_width - g.screen_padding - 50 ≤ wp.1) ||
        decide (g.screen_height - g.screen_padding - 50 ≤ wp.2))

/-- Game.reduce_padding (game.py lines 191-195): shrink both bounds by
one padding increment, re-checking can_reduce_padding first. -/
def reduce_padding (g : Game) : Game :=
  if can_reduce_padding g then
    { g with
      screen_width := g.screen_width - g.screen_padding
      screen_height := g.screen_height - g.screen_padding }
  else g

/-- Game.remove_train (game.py lines 151-175): pop the entry if present,
recompute the passenger count, then either attempt one shrink step (when
trains remain) or reset the bounds to the original minimums and clear
the passengers (when none remain).  Note the function takes no lock. -/
def remove_train (g : Game) (name : String) (fresh : Nat → Passenger) : Game :=
  let g1 := { g with trains := g.trains.filter (fun p => p.1 ≠ name) }
  let g2 := { g1 with
              passengers := update_passengers_count g1.trains.length g1.passengers fresh }
  if 0 < g2.trains.length then
    if can_reduce_padding g2 then reduce_padding g2 else g2
  else
    { g2 with
      screen_width := ORIGINAL_SCREEN_WIDTH
      screen_height := ORIGINAL_SCREEN_HEIGHT
      passengers := [] }

/-- Remove the first passenger sitting at the given position (the pickup
consumes exactly one passenger; spec 4.5 step 2). -/
def removeFirstAt : List Passenger → Pos → List Passenger
  | [], _ => []
  | p :: ps, pos => if p.position = pos then ps else p :: removeFirstAt ps pos

/-- Modelled from the spec: Train.update (train.py is not in the
sources; spec 4.5).  A pending direction change takes effect first; the
head advances one grid cell; wagons shift follow-the-leader (the old
head position becomes the first wagon); landing on a passenger consumes
it and appends one wagon at the tail, which amounts to keeping the old
tail cell occupied. -/
def Train.update (t : Train) (ps : List Passenger) (gs : Int) : Train × List Passenger :=
  let dir := t.pending.getD t.direction
  let oldHead := t.position
  let newHead : Pos := (oldHead.1 + dir.vec.1 * gs, oldHead.2 + dir.vec.2 * gs)
  if ps.any (fun p => p.position = newHead) then
    ({ t with position := newHead, direction := dir, pending := none,
              wagons := oldHead :: t.wagons },
     removeFirstAt ps newHead)
  else
    ({ t with position := newHead, direction := dir, pending := none,
              wagons := oldHead :: t.wagons.dropLast },
     ps)

/-- Modelled from the spec: Train.check_collisions (train.py is not in
the sources; spec 4.5 step 3): dead when the head equals another train
head, or any wagon of any train including its own. -/
def Train.check_collisions (name : String) (t : Train) (trains : List (String × Train)) : Bool :=
  trains.any fun nt =>
    (decide (nt.1 ≠ name) && decide (nt.2.position = t.position)) ||
    nt.2.wagons.any (fun wp => decide (wp = t.position))

/-- Modelled from the spec: Train.check_out_of_bounds (train.py is not
in the sources; spec 4.5 step 4): dead when the head leaves
[0, width) x [0, height). -/
def Train.check_out_of_bounds (t : Train) (w h : Int) : Bool :=
  decide (t.position.1 < 0) || decide (w ≤ t.position.1) ||
  decide (t.position.2 < 0) || decide (h ≤ t.position.2)

/-- The per-train loop of Game.update (game.py lines 204-213): iterate
over the key snapshot, update each train in place (later trains see
earlier moves, as in the source), test the death conditions against the
current dict, and collect the names to remove. -/
def tickTrains (g : Game) : List String → List String → Game × List String
  | [], dead => (g, dead)
  | n :: rest, dead =>
    match g.trains.lookup n with
    | none => tickTrains g rest dead
    | some t =>
      let tp := Train.update t g.passengers g.grid_size
      let g' := { g with trains := dictInsert g.trains n tp.1, passengers := tp.2 }
      let isDead :=
        Train.check_collisions n tp.1 g'.trains ||
        Train.check_out_of_bounds tp.1 g'.screen_width g'.screen_height ||
        !tp.1.alive
      tickTrains g' rest (if isDead then dead ++ [n] else dead)

/-- Game.update, the tick (game.py lines 197-217): no-op without trains;
otherwise update every train, then remove the collected dead names via
remove_train (removal deferred until after the iteration). -/
def Game.update (g : Game) (fresh : Nat → Passenger) : Game :=
  if g.trains.isEmpty then g
  else
    let r := tickTrains g (g.trains.map Prod.fst) []
    r.2.foldl (fun h n => remove_train h n fresh) r.1

/-- Game.change_direction_of_train (game.py lines 224-232): when the
name exists, queue the new heading on that train (applied at its next
update, spec 4.5 step 5); otherwise a silent no-op.  Note the function
takes no lock. -/
def change_direction_of_train (g : Game) (name : String) (d : Dir) : Game :=
  match g.trains.lookup name with
  | some t => { g with trains := dictInsert g.trains name { t with pending := some d } }
  | none => g

/-- The engine states reachable from the initial state by any sequence
of add_train, remove_train and update calls, quantifying over the
oracle inputs of each call. -/
inductive Reachable : Game → Prop where
  | init : Reachable Game.init
  | add (g : Game) (name : String) (o : Oracle) :
      Reachable g → Reachable (add_train_total g name o)
  | remove (g : Game) (name : String) (fresh : Nat → Passenger) :
      Reachable g → Reachable (remove_train g name fresh)
  | tick (g : Game) (fresh : Nat → Passenger) :
      Reachable g → Reachable (Game.update g fresh)

/-- A fresh-passenger oracle placing every passenger at the origin; used
only to instantiate concrete scenarios. -/
def freshZero : Nat → Passenger := fun _ => ⟨(0, 0)⟩

/-- A concrete three-passenger list for instantiating scenarios. -/
def psThree : List Passenger := [⟨(0, 0)⟩, ⟨(20, 0)⟩, ⟨(40, 0)⟩]

/-- Modelled from the spec: the unsafety condition exactly as the claim
words it, to be compared with is_position_safe from the source: a
candidate is unsafe when within safe distance of a world edge, or when
for some train head or wagon it is NOT the case that both coordinate
distances strictly exceed the safe distance. -/
def claimed_unsafe (g : Game) (x y : Int) : Bool :=
  let sd := g.grid_size * g.spawn_safe_zone
  (decide (x < sd) || decide (y < sd) ||
   decide (g.screen_width - sd < x) || decide (g.screen_height - sd < y)) ||
  g.trains.any fun nt =>
    (!(decide (sd < |nt.2.position.1 - x|) && decide (sd < |nt.2.position.2 - y|))) ||
    nt.2.wagons.any fun wp =>
      !(decide (sd < |wp.1 - x|) && decide (sd < |wp.2 - y|))

/-- Modelled from the spec: the cannot-shrink condition exactly as the
claim words it, to be compared with can_reduce_padding from the source:
some train head or wagon lies within screen_padding - 50 grid units of
the right or bottom edge. -/
def claimed_cannot_reduce (g : Game) : Bool :=
  g.trains.any fun nt =>
    (decide (g.screen_width - nt.2.position.1 ≤ g.screen_padding - 50) ||
     decide (g.screen_height - nt.2.position.2 ≤ g.screen_padding - 50)) ||
    nt.2.wagons.any fun wp =>
      decide (g.screen_width - wp.1 ≤ g.screen_padding - 50) ||
      decide (g.screen_height - wp.2 ≤ g.screen_padding - 50)

/-- A lock-discipline event: acquiring or releasing the engine lock, or
mutating one of the shared engine fields. -/
inductive LockEvent where
  | acquire
  | release
  | mutate (field : String)
deriving DecidableEq, Repr

/-- The shared-field mutations of an event trace that happen while the
lock is not held (depth counts currently held acquisitions). -/
def unlockedMutations : List LockEvent → Nat → List String
  | [], _ => []
  | .acquire :: es, d => unlockedMutations es (d + 1)
  | .release :: es, d => unlockedMutations es (d - 1)
  | .mutate f :: es, 0 => f :: unlockedMutations es 0
  | .mutate _ :: es, d + 1 => unlockedMutations es (d + 1)

/-- True when every mutation of the trace happens under the lock. -/
def allMutationsLocked (es : List LockEvent) : Bool :=
  (unlockedMutations es 0).isEmpty

/-- The lock/mutation trace of Game.add_train (game.py lines 136-149):
the with-block (line 137) covers the dict assignment (line 140) and the
passenger recount (line 147), but update_screen_size (line 149) runs
after the block exits, outside the lock. -/
def add_train_lock_trace : List LockEvent :=
  [.acquire, .mutate "trains", .mutate "passengers", .release, .mutate "screen_size"]

/-- The lock/mutation trace of a direct Game.remove_train call (game.py
lines 151-175): the method contains no with-block at all; it pops the
dict entry, recounts or clears passengers, and resizes the screen with
the lock never acquired. -/
def remove_train_lock_trace : List LockEvent :=
  [.mutate "trains", .mutate "passengers", .mutate "screen_size"]

/-- The lock/mutation trace of Game.update (game.py lines 197-217): the
with-block (line 202) covers the per-train updates (which mutate trains
and passengers) and the deferred remove_train calls (line 217), whose
mutations therefore run under the lock. -/
def update_lock_trace : List LockEvent :=
  [.acquire, .mutate "trains", .mutate "passengers"] ++
  remove_train_lock_trace ++ [.release]

/-- The lock/mutation trace of Game.change_direction_of_train (game.py
lines 224-232): it mutates the addressed train with no with-block. -/
def change_direction_lock_trace : List LockEvent :=
  [.mutate "trains"]

/-- Concrete state used against claim C2: a 300 x 300 world holding one
train A near the origin and one passenger. -/
def gC2 : Game :=
  { Game.init with
    screen_width := 300
    screen_height := 300
    trains := [("A", ⟨(60, 60), .right, none, [], true⟩)]
    passengers := [⟨(280, 280)⟩] }

/-- Concrete state used against claim C3: an engine whose bounds have
shrunk to 100 x 100, where the randint sampling range [3, 100 / 20 - 3]
is empty. -/
def gC3 : Game :=
  { Game.init with screen_width := 100, screen_height := 100 }

/-- Oracle used in concrete scenarios: every randint draw picks offset
5, trains head right, fresh passengers at the origin. -/
def oFive : Oracle :=
  { rnd := fun _ => (5, 5), dir := .right, fresh := freshZero }

/-- Oracle drawing offset 0 everywhere. -/
def oZero : Oracle :=
  { rnd := fun _ => (0, 0), dir := .right, fresh := freshZero }

/-- A concrete train head at (60, 60) heading right, no wagons. -/
def tR : Train := ⟨(60, 60), .right, none, [], true⟩

/-- A concrete engine state holding exactly the one train A. -/
def gOne : Game := { Game.init with trains := [("A", tR)] }

/-- Concrete state used against claim C4: a 300 x 300 world holding
train A at (100, 100) with one wagon, and one passenger. -/
def gC4 : Game :=
  { Game.init with
    screen_width := 300
    screen_height := 300
    trains := [("A", ⟨(100, 100), .right, none, [(80, 100)], true⟩)]
    passengers := [⟨(20, 20)⟩] }

/-- Concrete state used against claim C5: a 400 x 400 world holding one
train at (100, 100). -/
def gC5 : Game :=
  { Game.init with
    screen_width := 400
    screen_height := 400
    trains := [("A", ⟨(100, 100), .right, none, [], true⟩)] }

/-- Concrete state used against claim C6: a 300 x 300 world holding one
train at (160, 60), inside the code's shrink-blocking band but far from
the band the claim describes. -/
def gC6 : Game :=
  { Game.init with
    screen_width := 300
    screen_height := 300
    trains := [("A", ⟨(160, 60), .right, none, [], true⟩)] }

/-- Inductive invariant on a single train under sequences of add,
remove and tick calls (no direction changes): the pending queue is
empty, so the heading never changes, and every position of the train
(head and wagons) keeps its frozen coordinate - the one its heading does
not move - at or above 60, where it was spawned. -/
def TrainOK (t : Train) : Prop :=
  t.pending = none ∧
  ((t.direction.isHorizontal = true ∧ 60 ≤ t.position.2 ∧ ∀ wp ∈ t.wagons, 60 ≤ wp.2) ∨
   (t.direction.isHorizontal = false ∧ 60 ≤ t.position.1 ∧ ∀ wp ∈ t.wagons, 60 ≤ wp.1))

/-- Inductive invariant on the engine state under sequences of add,
remove and tick calls: the configuration constants are the source ones,
the two bounds move in lockstep and stay at or above 200 in steps of
100, and every train satisfies TrainOK. -/
def GameOK (g : Game) : Prop :=
  g.grid_size = 20 ∧ g.screen_padding = 100 ∧ g.spawn_safe_zone = 3 ∧
  g.screen_width = g.screen_height ∧ 200 ≤ g.screen_width ∧
  (100 : Int) ∣ g.screen_width ∧
  ∀ nt ∈ g.trains, TrainOK nt.2

example : is_position_safe Game.init 100 100 = true := by decide

example : is_position_safe Game.init 40 100 = false := by decide

example : update_passengers_count 4 [] (fun _ => ⟨(0, 0)⟩) = [⟨(0, 0)⟩, ⟨(0, 0)⟩] := by decide

example :
    remove_train { Game.init with trains := [("A", ⟨(60, 60), .right, none, [], true⟩)] }
      "A" (fun _ => ⟨(0, 0)⟩) = Game.init := by decide

theorem addPassengers_shape (fresh : Nat → Passenger) :
    ∀ (m : Nat) (ps : List Passenger) (k : Nat),
      ∃ extra : List Passenger, addPassengers fresh ps k m = ps ++ extra ∧ extra.length = m := by
  intro m
  induction m with
  | zero => exact fun ps k => ⟨[], by simp [addPassengers]⟩
  | succ m ih =>
    intro ps k
    obtain ⟨extra, he, hl⟩ := ih (ps ++ [fresh k]) (k + 1)
    exact ⟨fresh k :: extra, by simp [addPassengers, he], by simp [hl]⟩

theorem addPassengers_of_zero (fresh : Nat → Passenger) (ps : List Passenger) (k : Nat) :
    addPassengers fresh ps k 0 = ps := rfl

theorem dropPassengers_eq_take :
    ∀ (m : Nat) (ps : List Passenger), dropPassengers ps m = ps.take (ps.length - m) := by
  intro m
  induction m with
  | zero => intro ps; simp [dropPassengers]
  | succ m ih =>
    intro ps
    rw [dropPassengers, ih, List.dropLast_eq_take, List.take_take]
    simp only [List.length_take]
    congr 1
    omega

theorem update_passengers_count_length (n : Nat) (ps : List Passenger)
    (fresh : Nat → Passenger) :
    (update_passengers_count n ps fresh).length = max 1 (n / 2) := by
  obtain ⟨extra, he, hl⟩ := addPassengers_shape fresh (max 1 (n / 2) - ps.length) ps 0
  simp only [update_passengers_count, he, dropPassengers_eq_take, List.length_take,
    List.length_append]
  omega

theorem update_passengers_count_of_ge (n : Nat) (ps : List Passenger)
    (fresh : Nat → Passenger) (h : max 1 (n / 2) ≤ ps.length) :
    update_passengers_count n ps fresh = ps.take (max 1 (n / 2)) := by
  have h0 : max 1 (n / 2) - ps.length = 0 := by omega
  simp only [update_passengers_count, h0, addPassengers_of_zero, dropPassengers_eq_take]
  congr 1
  omega

theorem update_passengers_count_of_le (n : Nat) (ps : List Passenger)
    (fresh : Nat → Passenger) (h : ps.length ≤ max 1 (n / 2)) :
    ∃ extra : List Passenger, update_passengers_count n ps fresh = ps ++ extra := by
  obtain ⟨extra, he, hl⟩ := addPassengers_shape fresh (max 1 (n / 2) - ps.length) ps 0
  refine ⟨extra, ?_⟩
  simp only [update_passengers_count, he, dropPassengers_eq_take]
  have h0 : (ps ++ extra).length - ((ps ++ extra).length - max 1 (n / 2)) =
      (ps ++ extra).length := by
    simp only [List.length_append, hl]
    omega
  rw [h0, List.take_length]

/-- Claim C7: after update_passengers_count the passenger list length is
max(1, floor(trainCount * 0.5)); a longer list is cut only from the
tail, keeping the front intact, and a shorter list is only appended
to. -/
theorem C7_passenger_population (n : Nat) (ps : List Passenger) (fresh : Nat → Passenger) :
    (update_passengers_count n ps fresh).length = max 1 (n / 2) ∧
    (max 1 (n / 2) ≤ ps.length →
      update_passengers_count n ps fresh = ps.take (max 1 (n / 2))) ∧
    (ps.length ≤ max 1 (n / 2) →
      ∃ extra : List Passenger, update_passengers_count n ps fresh = ps ++ extra) :=
  ⟨update_passengers_count_length n ps fresh,
   update_passengers_count_of_ge n ps fresh,
   update_passengers_count_of_le n ps fresh⟩

/-- Witness for C7 at a concrete input: five trains, a three-passenger
list shrinking to the desired two. -/
theorem C7_passenger_population_witness :
    (update_passengers_count 5 psThree freshZero).length = max 1 (5 / 2) ∧
    (max 1 (5 / 2) ≤ psThree.length →
      update_passengers_count 5 psThree freshZero = psThree.take (max 1 (5 / 2))) ∧
    (psThree.length ≤ max 1 (5 / 2) →
      ∃ extra : List Passenger,
        update_passengers_count 5 psThree freshZero = psThree ++ extra) :=
  C7_passenger_population 5 psThree freshZero

theorem lookup_none_filter_eq {m : List (String × Train)} {k : String}
    (h : m.lookup k = none) : m.filter (fun p => p.1 ≠ k) = m := by
  induction m with
  | nil => rfl
  | cons p rest ih =>
    obtain ⟨pk, pv⟩ := p
    rw [List.lookup_cons] at h
    by_cases hk : k = pk
    · simp [hk] at h
    · have hne : (k == pk) = false := beq_eq_false_iff_ne.mpr hk
      rw [hne] at h
      simp only [List.filter_cons]
      have hd : (decide (pk ≠ k)) = true := by
        simp
        exact fun hc => hk hc.symm
      rw [hd, ih h]
      simp

/-- Claim C2, counterexample: in the concrete state gC2 the name X is
absent, yet remove_train shrinks the world width, so the call is not a
no-op on the whole state. -/
theorem C2_remove_absent_counterexample :
    gC2.trains.lookup "X" = none ∧
    (remove_train gC2 "X" freshZero).screen_width ≠ gC2.screen_width := by decide

/-- Claim C2 (amended): remove_train on an absent name never changes the
train map and raises no error, but it still recomputes the passenger
count and still runs the bounds logic, so the width afterwards is either
unchanged, shrunk by one padding step, or reset to the original
minimum. -/
theorem C2_remove_absent_frame (g : Game) (name : String) (fresh : Nat → Passenger)
    (h : g.trains.lookup name = none) :
    (remove_train g name fresh).trains = g.trains ∧
    ((remove_train g name fresh).screen_width = g.screen_width ∨
     (remove_train g name fresh).screen_width = g.screen_width - g.screen_padding ∨
     (remove_train g name fresh).screen_width = ORIGINAL_SCREEN_WIDTH) := by
  have hf := lookup_none_filter_eq h
  unfold remove_train reduce_padding
  constructor
  · simp only [hf]
    split
    · split
      · rfl
      · rfl
    · rfl
  · simp only [hf]
    split
    · split
      · right; left; rfl
      · left; rfl
    · right; right; rfl

/-- Witness for C2: removing the absent name X from the concrete state
gC2 keeps the train map intact. -/
theorem C2_remove_absent_frame_witness :
    (remove_train gC2 "X" freshZero).trains = gC2.trains ∧
    ((remove_train gC2 "X" freshZero).screen_width = gC2.screen_width ∨
     (remove_train gC2 "X" freshZero).screen_width = gC2.screen_width - gC2.screen_padding ∨
     (remove_train gC2 "X" freshZero).screen_width = ORIGINAL_SCREEN_WIDTH) :=
  C2_remove_absent_frame gC2 "X" freshZero (by decide)

/-- Claim C9: removing the single remaining train empties the train map
and the passenger list and resets both bounds to the original minimum
dimensions, whatever their current size. -/
theorem C9_remove_last_train (g : Game) (name : String) (t : Train) (fresh : Nat → Passenger)
    (h : g.trains = [(name, t)]) :
    (remove_train g name fresh).trains = [] ∧
    (remove_train g name fresh).passengers = [] ∧
    (remove_train g name fresh).screen_width = ORIGINAL_SCREEN_WIDTH ∧
    (remove_train g name fresh).screen_height = ORIGINAL_SCREEN_HEIGHT := by
  simp [remove_train, h]

/-- Witness for C9: removing train A from the one-train state gOne. -/
theorem C9_remove_last_train_witness :
    (remove_train gOne "A" freshZero).trains = [] ∧
    (remove_train gOne "A" freshZero).passengers = [] ∧
    (remove_train gOne "A" freshZero).screen_width = ORIGINAL_SCREEN_WIDTH ∧
    (remove_train gOne "A" freshZero).screen_height = ORIGINAL_SCREEN_HEIGHT :=
  C9_remove_last_train gOne "A" tR freshZero rfl

/-- Claim C10, counterexample: not every mutating operation runs its
mutations under the lock; the remove_train trace (no with-block in the
source) already refutes the conjunction. -/
theorem C10_lock_counterexample :
    ¬ (allMutationsLocked add_train_lock_trace = true ∧
       allMutationsLocked remove_train_lock_trace = true ∧
       allMutationsLocked update_lock_trace = true ∧
       allMutationsLocked change_direction_lock_trace = true) := by decide

/-- Claim C10 (amended): only the tick runs entirely under the lock;
add_train mutates the train map and passenger list under the lock but
grows the bounds after releasing it, while direct remove_train and
change_direction_of_train calls mutate shared state with the lock never
acquired (remove_train runs under the lock only when invoked from the
tick). -/
theorem C10_lock_discipline :
    unlockedMutations update_lock_trace 0 = [] ∧
    unlockedMutations add_train_lock_trace 0 = ["screen_size"] ∧
    unlockedMutations remove_train_lock_trace 0 = ["trains", "passengers", "screen_size"] ∧
    unlockedMutations change_direction_lock_trace 0 = ["trains"] := by decide

/-- Claim C5, counterexample: at gC5 the candidate (100, 160) is safe
for the code (the y distance to the only train reaches the threshold,
and one clear axis suffices), while the claim calls it unsafe (it
demands BOTH axis distances to exceed the threshold). -/
theorem C5_claim_counterexample :
    ¬ (is_position_safe gC5 100 160 = false ↔ claimed_unsafe gC5 100 160 = true) := by decide

theorem entry_blocks_safety_iff (sd x y : Int) (t : Train) :
    ((!(decide (|t.position.1 - x| < sd) && decide (|t.position.2 - y| < sd))) &&
      t.wagons.all fun wp => !(decide (|wp.1 - x| < sd) && decide (|wp.2 - y| < sd))) = false ↔
    (|t.position.1 - x| < sd ∧ |t.position.2 - y| < sd) ∨
      ∃ wp ∈ t.wagons, |wp.1 - x| < sd ∧ |wp.2 - y| < sd := by
  simp [Bool.and_eq_false_iff, Bool.not_eq_false', List.all_eq_false, Bool.not_eq_true']
  constructor
  · intro himp
    by_cases hA : sd ≤ |t.position.1 - x| ∨ sd ≤ |t.position.2 - y|
    · exact Or.inr (himp hA)
    · push_neg at hA
      exact Or.inl hA
  · rintro (⟨h1, h2⟩ | hE)
    · intro hA
      exfalso
      rcases hA with hA | hA
      · exact absurd hA (not_le.mpr h1)
      · exact absurd hA (not_le.mpr h2)
    · intro _
      exact hE

/-- Claim C5 (amended): is_position_safe returns false exactly when the
candidate is within safe distance of a world edge, or BOTH coordinate
distances to some train head or to some wagon are strictly below the
safe distance (one clear axis already makes the candidate safe with
respect to that head or wagon). -/
theorem C5_position_safety (g : Game) (x y : Int) :
    is_position_safe g x y = false ↔
      (x < g.grid_size * g.spawn_safe_zone ∨ y < g.grid_size * g.spawn_safe_zone ∨
        g.screen_width - g.grid_size * g.spawn_safe_zone < x ∨
        g.screen_height - g.grid_size * g.spawn_safe_zone < y) ∨
      ∃ nt ∈ g.trains,
        (|nt.2.position.1 - x| < g.grid_size * g.spawn_safe_zone ∧
         |nt.2.position.2 - y| < g.grid_size * g.spawn_safe_zone) ∨
        ∃ wp ∈ nt.2.wagons,
          |wp.1 - x| < g.grid_size * g.spawn_safe_zone ∧
          |wp.2 - y| < g.grid_size * g.spawn_safe_zone := by
  unfold is_position_safe
  dsimp only
  split
  case isTrue h => exact iff_of_true rfl (Or.inl h)
  case isFalse h =>
    rw [← Bool.not_eq_true, List.all_eq_true]
    push_neg
    constructor
    · rintro ⟨nt, hmem, hfail⟩
      refine Or.inr ⟨nt, hmem, ?_⟩
      exact (entry_blocks_safety_iff (g.grid_size * g.spawn_safe_zone) x y nt.2).mp
        (Bool.eq_false_iff.mpr hfail)
    · rintro (hb | ⟨nt, hmem, hcase⟩)
      · exact absurd hb h
      · exact ⟨nt, hmem, Bool.eq_false_iff.mp
          ((entry_blocks_safety_iff (g.grid_size * g.spawn_safe_zone) x y nt.2).mpr hcase)⟩

/-- Claim C6, counterexample: at gC6 the train head at x = 160 sits at
least 300 - 100 - 50 = 150 from zero, so the code refuses to shrink,
while the claim (within screen_padding - 50 = 50 of the right or bottom
edge) sees no blocker and demands true. -/
theorem C6_claim_counterexample :
    ¬ (can_reduce_padding gC6 = false ↔ claimed_cannot_reduce gC6 = true) := by decide

theorem entry_blocks_reduce_iff (tw th : Int) (t : Train) :
    ((!(decide (tw ≤ t.position.1) || decide (th ≤ t.position.2))) &&
      t.wagons.all fun wp => !(decide (tw ≤ wp.1) || decide (th ≤ wp.2))) = false ↔
    (tw ≤ t.position.1 ∨ th ≤ t.position.2) ∨
      ∃ wp ∈ t.wagons, tw ≤ wp.1 ∨ th ≤ wp.2 := by
  simp [Bool.and_eq_false_iff, Bool.not_eq_false', List.all_eq_false, Bool.not_eq_true']
  constructor
  · intro himp
    by_cases hx : tw ≤ t.position.1
    · exact Or.inl (Or.inl hx)
    · by_cases hy : th ≤ t.position.2
      · exact Or.inl (Or.inr hy)
      · obtain ⟨a, b, hmem, hw⟩ := himp (not_le.mp hx) (not_le.mp hy)
        right
        refine ⟨a, b, hmem, ?_⟩
        by_cases ha : tw ≤ a
        · exact Or.inl ha
        · exact Or.inr (hw (not_le.mp ha))
  · rintro (hhead | ⟨a, b, hmem, hw⟩)
    · intro hx hy
      exfalso
      rcases hhead with hh | hh
      · exact absurd hh (not_le.mpr hx)
      · exact absurd hh (not_le.mpr hy)
    · intro _ _
      refine ⟨a, b, hmem, ?_⟩
      intro ha
      rcases hw with hw | hw
      · exact absurd hw (not_le.mpr ha)
      · exact hw

/-- Claim C6 (amended): can_reduce_padding returns false exactly when
some train head or wagon coordinate is at least bound minus
screen_padding minus 50 on the x or y axis, that is, lies within
screen_padding + 50 grid units of the right or bottom edge (the left
and top edges are indeed never checked); otherwise it returns true. -/
theorem C6_can_reduce_characterisation (g : Game) :
    can_reduce_padding g = false ↔
      ∃ nt ∈ g.trains,
        (g.screen_width - g.screen_padding - 50 ≤ nt.2.position.1 ∨
         g.screen_height - g.screen_padding - 50 ≤ nt.2.position.2) ∨
        ∃ wp ∈ nt.2.wagons,
          g.screen_width - g.screen_padding - 50 ≤ wp.1 ∨
          g.screen_height - g.screen_padding - 50 ≤ wp.2 := by
  unfold can_reduce_padding
  rw [← Bool.not_eq_true, List.all_eq_true]
  push_neg
  constructor
  · rintro ⟨nt, hmem, hfail⟩
    exact ⟨nt, hmem, (entry_blocks_reduce_iff (g.screen_width - g.screen_padding - 50)
      (g.screen_height - g.screen_padding - 50) nt.2).mp (Bool.eq_false_iff.mpr hfail)⟩
  · rintro ⟨nt, hmem, hcase⟩
    exact ⟨nt, hmem, Bool.eq_false_iff.mp ((entry_blocks_reduce_iff
      (g.screen_width - g.screen_padding - 50)
      (g.screen_height - g.screen_padding - 50) nt.2).mpr hcase)⟩

theorem randint_le {lo hi : Int} {r : Nat} {v : Int} (h : randint lo hi r = some v) :
    lo ≤ v ∧ v ≤ hi := by
  unfold randint at h
  split at h
  · exact absurd h (by simp)
  case isFalse hlt =>
    injection h with hv
    have hz : hi - lo + 1 ≠ 0 := by omega
    have hpos : (0 : Int) < hi - lo + 1 := by omega
    have h1 := Int.emod_nonneg (r : Int) hz
    have h2 := Int.emod_lt_of_pos (r : Int) hpos
    omega

theorem findSpawn_found_bound (g : Game) (rnd : Nat → Nat × Nat)
    (hgs : g.grid_size = 20) (hsz : g.spawn_safe_zone = 3) :
    ∀ (fuel k : Nat) (x y : Int),
      findSpawn g rnd fuel k = some (some (x, y)) → 60 ≤ x ∧ 60 ≤ y := by
  intro fuel
  induction fuel with
  | zero =>
    intro k x y h
    exact absurd h (by simp [findSpawn])
  | succ fuel ih =>
    intro k x y h
    rw [findSpawn] at h
    cases hrx : randint g.spawn_safe_zone (g.screen_width / g.grid_size - g.spawn_safe_zone)
        (rnd k).1 with
    | none =>
      rw [hrx] at h
      simp at h
    | some rx =>
      cases hry : randint g.spawn_safe_zone (g.screen_height / g.grid_size - g.spawn_safe_zone)
          (rnd k).2 with
      | none =>
        rw [hrx, hry] at h
        simp at h
      | some ry =>
        rw [hrx, hry] at h
        dsimp only at h
        split at h
        · have hx := (randint_le hrx).1
          have hy := (randint_le hry).1
          rw [hsz] at hx hy
          injection h with h
          injection h with h
          rw [Prod.mk.injEq] at h
          rw [hgs] at h
          omega
        · exact ih (k + 1) x y h

theorem spawn_bound (g : Game) (rnd : Nat → Nat × Nat) (x y : Int)
    (hgs : g.grid_size = 20) (hsz : g.spawn_safe_zone = 3)
    (hw : 200 ≤ g.screen_width) (hh : 200 ≤ g.screen_height)
    (h : get_safe_spawn_position g rnd = some (x, y)) :
    60 ≤ x ∧ 60 ≤ y := by
  unfold get_safe_spawn_position at h
  cases hfs : findSpawn g rnd 100 0 with
  | none =>
    rw [hfs] at h
    simp at h
  | some o =>
    cases o with
    | some p =>
      rw [hfs] at h
      dsimp only at h
      injection h with h
      exact findSpawn_found_bound g rnd hgs hsz 100 0 x y (by rw [hfs, h])
    | none =>
      rw [hfs] at h
      dsimp only at h
      injection h with h
      rw [Prod.mk.injEq] at h
      rw [hgs] at h
      omega

theorem findSpawn_ne_none (g : Game) (rnd : Nat → Nat × Nat)
    (hgs : g.grid_size = 20) (hsz : g.spawn_safe_zone = 3)
    (hw : 120 ≤ g.screen_width) (hh : 120 ≤ g.screen_height) :
    ∀ (fuel k : Nat), findSpawn g rnd fuel k ≠ none := by
  intro fuel
  induction fuel with
  | zero =>
    intro k
    simp [findSpawn]
  | succ fuel ih =>
    intro k
    rw [findSpawn]
    have hx : ¬ (g.screen_width / g.grid_size - g.spawn_safe_zone < g.spawn_safe_zone) := by
      rw [hgs, hsz]
      omega
    have hy : ¬ (g.screen_height / g.grid_size - g.spawn_safe_zone < g.spawn_safe_zone) := by
      rw [hgs, hsz]
      omega
    simp only [randint, if_neg hx, if_neg hy]
    split
    · simp
    · exact ih (k + 1)

theorem spawn_isSome (g : Game) (rnd : Nat → Nat × Nat)
    (hgs : g.grid_size = 20) (hsz : g.spawn_safe_zone = 3)
    (hw : 120 ≤ g.screen_width) (hh : 120 ≤ g.screen_height) :
    ∃ p, get_safe_spawn_position g rnd = some p := by
  unfold get_safe_spawn_position
  cases hfs : findSpawn g rnd 100 0 with
  | none => exact absurd hfs (findSpawn_ne_none g rnd hgs hsz hw hh 100 0)
  | some o =>
    cases o with
    | some p => exact ⟨p, rfl⟩
    | none => exact ⟨_, rfl⟩

/-- Claim C3: at the 100 x 100 state gC3 the sampling range
[3, 100 / 20 - 3] = [3, 2] is empty, random.randint raises ValueError,
and add_train aborts instead of returning a position: the code can
terminate the caller on small bounds, contradicting the claimed
always-succeeds behaviour (such bounds are reachable in the full system
via repeated shrink steps). -/
theorem C3_add_train_raises :
    get_safe_spawn_position gC3 (fun _ => (0, 0)) = none ∧
    add_train gC3 "A" oZero = none := by decide

theorem map_fst_overwrite (m : List (String × Train)) (k : String) (v : Train) :
    (m.map (fun p => if p.1 = k then (k, v) else p)).map Prod.fst = m.map Prod.fst := by
  induction m with
  | nil => rfl
  | cons p rest ih =>
    simp only [List.map_cons]
    rw [ih]
    congr 1
    by_cases hp : p.1 = k
    · rw [if_pos hp]
      exact hp.symm
    · rw [if_neg hp]

theorem lookup_overwrite (k : String) (v : Train) :
    ∀ m : List (String × Train), (m.lookup k).isSome →
      (m.map (fun p => if p.1 = k then (k, v) else p)).lookup k = some v := by
  intro m
  induction m with
  | nil =>
    intro h
    simp [List.lookup] at h
  | cons p rest ih =>
    intro h
    obtain ⟨pk, pv⟩ := p
    by_cases hp : pk = k
    · simp only [List.map_cons, if_pos hp]
      simp [List.lookup]
    · simp only [List.map_cons, if_neg hp, List.lookup_cons]
      have hne : (k == pk) = false := beq_eq_false_iff_ne.mpr (fun he => hp he.symm)
      rw [hne]
      refine ih ?_
      rw [List.lookup_cons, hne] at h
      exact h

theorem dictInsert_of_present (m : List (String × Train)) (k : String) (v : Train)
    (h : (m.lookup k).isSome) :
    ((dictInsert m k v).map Prod.fst = m.map Prod.fst) ∧
    (dictInsert m k v).lookup k = some v := by
  unfold dictInsert
  rw [if_pos h]
  exact ⟨map_fst_overwrite m k v, lookup_overwrite k v m h⟩

/-- Claim C4, counterexample: adding the already-present name A in the
concrete state gC4 changes the train map (the entry is replaced by a
freshly spawned train with no wagons), so the call is not a no-op that
keeps the existing train. -/
theorem C4_overwrite_counterexample :
    (add_train_total gC4 "A" oFive).trains ≠ gC4.trains := by decide

/-- Claim C4 (amended): add_train on a name already present surfaces no
error and keeps the key set of the map, but silently OVERWRITES the
entry: afterwards the name maps to a freshly spawned train (pending
queue empty, no wagons, alive), not to the previous train with its
position and wagons. -/
theorem C4_add_existing_overwrites (g : Game) (name : String) (o : Oracle)
    (hp : (g.trains.lookup name).isSome)
    (hgs : g.grid_size = 20) (hsz : g.spawn_safe_zone = 3)
    (hw : 120 ≤ g.screen_width) (hh : 120 ≤ g.screen_height) :
    ∃ g' t', add_train g name o = some g' ∧
      g'.trains.map Prod.fst = g.trains.map Prod.fst ∧
      g'.trains.lookup name = some t' ∧
      t'.wagons = [] ∧ t'.pending = none ∧ t'.alive = true := by
  obtain ⟨pos, hpos⟩ := spawn_isSome g o.rnd hgs hsz hw hh
  obtain ⟨hkeys, hlook⟩ := dictInsert_of_present g.trains name
    (⟨pos, o.dir, none, [], true⟩ : Train) hp
  have hadd : add_train g name o = some (update_screen_size { g with
      trains := dictInsert g.trains name (⟨pos, o.dir, none, [], true⟩ : Train),
      passengers := update_passengers_count
        (dictInsert g.trains name (⟨pos, o.dir, none, [], true⟩ : Train)).length
        g.passengers o.fresh }) := by
    unfold add_train
    rw [hpos]
  refine ⟨_, (⟨pos, o.dir, none, [], true⟩ : Train), hadd, ?_, ?_, rfl, rfl, rfl⟩
  · simpa [update_screen_size] using hkeys
  · simpa [update_screen_size] using hlook

/-- Witness for C4: gC4 holds the name A, and re-adding it succeeds
while replacing the entry. -/
theorem C4_add_existing_overwrites_witness :
    ∃ g' t', add_train gC4 "A" oFive = some g' ∧
      g'.trains.map Prod.fst = gC4.trains.map Prod.fst ∧
      g'.trains.lookup "A" = some t' ∧
      t'.wagons = [] ∧ t'.pending = none ∧ t'.alive = true :=
  C4_add_existing_overwrites gC4 "A" oFive (by decide) (by decide) (by decide)
    (by decide) (by decide)

/-- Claim C8: from any engine state with no trains (and the source
configuration constants), add_train A yields exactly one train, exactly
one passenger (max(1, floor(1 * 0.5)) = 1), and both bounds grown by
exactly one screen_padding increment. -/
theorem C8_first_add (g : Game) (o : Oracle) (h0 : g.trains = [])
    (hgs : g.grid_size = 20) (hsz : g.spawn_safe_zone = 3)
    (hw : 200 ≤ g.screen_width) (hh : 200 ≤ g.screen_height) :
    ∃ g' t, add_train g "A" o = some g' ∧ g'.trains = [("A", t)] ∧
      g'.passengers.length = 1 ∧
      g'.screen_width = g.screen_width + g.screen_padding ∧
      g'.screen_height = g.screen_height + g.screen_padding := by
  obtain ⟨pos, hpos⟩ := spawn_isSome g o.rnd hgs hsz (by omega) (by omega)
  have hins : dictInsert g.trains "A" (⟨pos, o.dir, none, [], true⟩ : Train) =
      [("A", (⟨pos, o.dir, none, [], true⟩ : Train))] := by
    rw [h0]
    rfl
  have hadd : add_train g "A" o = some (update_screen_size { g with
      trains := [("A", (⟨pos, o.dir, none, [], true⟩ : Train))],
      passengers := update_passengers_count 1 g.passengers o.fresh }) := by
    unfold add_train
    rw [hpos]
    dsimp only
    rw [hins]
    rfl
  refine ⟨_, _, hadd, rfl, ?_, rfl, rfl⟩
  simpa [update_screen_size] using update_passengers_count_length 1 g.passengers o.fresh

/-- Witness for C8: the first add on the pristine initial engine. -/
theorem C8_first_add_witness :
    ∃ g' t, add_train Game.init "A" oZero = some g' ∧ g'.trains = [("A", t)] ∧
      g'.passengers.length = 1 ∧
      g'.screen_width = Game.init.screen_width + Game.init.screen_padding ∧
      g'.screen_height = Game.init.screen_height + Game.init.screen_padding :=
  C8_first_add Game.init oZero rfl rfl rfl (by decide) (by decide)

theorem Dir.vec_snd_of_horizontal (d : Dir) (h : d.isHorizontal = true) : d.vec.2 = 0 := by
  cases d <;> simp_all [Dir.isHorizontal, Dir.vec]

theorem Dir.vec_fst_of_vertical (d : Dir) (h : d.isHorizontal = false) : d.vec.1 = 0 := by
  cases d <;> simp_all [Dir.isHorizontal, Dir.vec]

theorem mem_of_lookup {m : List (String × Train)} {k : String} {v : Train}
    (h : m.lookup k = some v) : (k, v) ∈ m := by
  induction m with
  | nil => simp [List.lookup] at h
  | cons p rest ih =>
    obtain ⟨pk, pv⟩ := p
    by_cases hk : k = pk
    · subst hk
      simp only [List.lookup_cons, beq_self_eq_true] at h
      injection h with h
      cases h
      exact List.mem_cons_self _ _
    · have hne : (k == pk) = false := beq_eq_false_iff_ne.mpr hk
      rw [List.lookup_cons, hne] at h
      exact List.mem_cons_of_mem _ (ih h)

theorem mem_dictInsert {m : List (String × Train)} {k : String} {v : Train} {p : String × Train}
    (h : p ∈ dictInsert m k v) : p ∈ m ∨ p = (k, v) := by
  unfold dictInsert at h
  split at h
  · rcases List.mem_map.mp h with ⟨q, hq, he⟩
    by_cases hqk : q.1 = k
    · rw [if_pos hqk] at he
      right
      exact he.symm
    · rw [if_neg hqk] at he
      left
      exact he ▸ hq
  · rcases List.mem_append.mp h with hq | hq
    · left
      exact hq
    · right
      simpa using hq

theorem trainOK_fresh (pos : Pos) (d : Dir) (hx : 60 ≤ pos.1) (hy : 60 ≤ pos.2) :
    TrainOK ⟨pos, d, none, [], true⟩ := by
  refine ⟨rfl, ?_⟩
  cases hd : d.isHorizontal
  · right
    exact ⟨rfl, hx, by intro wp hwp; simp at hwp⟩
  · left
    exact ⟨rfl, hy, by intro wp hwp; simp at hwp⟩

theorem trainOK_update (t : Train) (ps : List Passenger) (gs : Int) (h : TrainOK t) :
    TrainOK (Train.update t ps gs).1 := by
  obtain ⟨hpend, hax⟩ := h
  have hwsub : ∀ wp ∈ t.wagons.dropLast, wp ∈ t.wagons := by
    intro wp hwp
    rw [List.dropLast_eq_take] at hwp
    exact List.take_subset _ _ hwp
  unfold Train.update
  rw [hpend]
  dsimp only [Option.getD]
  split
  · refine ⟨rfl, ?_⟩
    rcases hax with ⟨hdir, hy, hws⟩ | ⟨hdir, hx, hws⟩
    · left
      refine ⟨hdir, ?_, ?_⟩
      · dsimp only
        rw [Dir.vec_snd_of_horizontal t.direction hdir]
        simpa using hy
      · intro wp hwp
        dsimp only at hwp
        rcases List.mem_cons.mp hwp with hq | hq
        · rw [hq]
          exact hy
        · exact hws wp hq
    · right
      refine ⟨hdir, ?_, ?_⟩
      · dsimp only
        rw [Dir.vec_fst_of_vertical t.direction hdir]
        simpa using hx
      · intro wp hwp
        dsimp only at hwp
        rcases List.mem_cons.mp hwp with hq | hq
        · rw [hq]
          exact hx
        · exact hws wp hq
  · refine ⟨rfl, ?_⟩
    rcases hax with ⟨hdir, hy, hws⟩ | ⟨hdir, hx, hws⟩
    · left
      refine ⟨hdir, ?_, ?_⟩
      · dsimp only
        rw [Dir.vec_snd_of_horizontal t.direction hdir]
        simpa using hy
      · intro wp hwp
        dsimp only at hwp
        rcases List.mem_cons.mp hwp with hq | hq
        · rw [hq]
          exact hy
        · exact hws wp (hwsub wp hq)
    · right
      refine ⟨hdir, ?_, ?_⟩
      · dsimp only
        rw [Dir.vec_fst_of_vertical t.direction hdir]
        simpa using hx
      · intro wp hwp
        dsimp only at hwp
        rcases List.mem_cons.mp hwp with hq | hq
        · rw [hq]
          exact hx
        · exact hws wp (hwsub wp hq)

theorem can_reduce_padding_bound {g : Game} (h : can_reduce_padding g = true) :
    ∀ nt ∈ g.trains, nt.2.position.1 < g.screen_width - g.screen_padding - 50 ∧
      nt.2.position.2 < g.screen_height - g.screen_padding - 50 := by
  intro nt hmem
  rw [can_reduce_padding, List.all_eq_true] at h
  have hh := h nt hmem
  rw [Bool.and_eq_true] at hh
  have hh1 := hh.1
  rw [Bool.not_eq_true', Bool.or_eq_false_iff, decide_eq_false_iff_not,
    decide_eq_false_iff_not] at hh1
  omega

theorem gameOK_init : GameOK Game.init := by
  refine ⟨rfl, rfl, rfl, rfl, by decide, ⟨2, by decide⟩, ?_⟩
  intro nt hmem
  simp [Game.init] at hmem

theorem gameOK_remove (g : Game) (name : String) (fresh : Nat → Passenger) (h : GameOK g) :
    GameOK (remove_train g name fresh) := by
  obtain ⟨hgs, hpad, hsz, hwh, hw, hdvd, htr⟩ := h
  have htr' : ∀ nt ∈ g.trains.filter (fun p => p.1 ≠ name), TrainOK nt.2 := by
    intro nt hm
    exact htr nt (List.mem_of_mem_filter hm)
  unfold remove_train reduce_padding
  dsimp only
  split
  case isTrue hlen =>
    split
    case isTrue hcan =>
      have hne : g.trains.filter (fun p => p.1 ≠ name) ≠ [] := by
        intro hnil
        rw [hnil] at hlen
        simp at hlen
      obtain ⟨nt, hmem⟩ := List.exists_mem_of_ne_nil _ hne
      have hbd := can_reduce_padding_bound hcan nt hmem
      dsimp only at hbd
      have hok := htr' nt hmem
      have hcoord : 60 ≤ nt.2.position.1 ∨ 60 ≤ nt.2.position.2 := by
        rcases hok.2 with ⟨_, hy, _⟩ | ⟨_, hx, _⟩
        · right
          exact hy
        · left
          exact hx
      have h300 : 300 ≤ g.screen_width := by
        rcases hcoord with hc | hc <;> omega
      exact ⟨hgs, hpad, hsz, by dsimp only; omega, by dsimp only; omega,
        by dsimp only; omega, htr'⟩
    case isFalse hcan =>
      exact ⟨hgs, hpad, hsz, hwh, hw, hdvd, htr'⟩
  case isFalse hlen =>
    refine ⟨hgs, hpad, hsz, rfl, ?_, ?_, htr'⟩
    · show (200 : Int) ≤ ORIGINAL_SCREEN_WIDTH
      decide
    · exact ⟨2, show ORIGINAL_SCREEN_WIDTH = 100 * 2 by decide⟩

theorem gameOK_add (g : Game) (name : String) (o : Oracle) (h : GameOK g) :
    GameOK (add_train_total g name o) := by
  obtain ⟨hgs, hpad, hsz, hwh, hw, hdvd, htr⟩ := h
  unfold add_train_total add_train
  cases hpos : get_safe_spawn_position g o.rnd with
  | none =>
    exact ⟨hgs, hpad, hsz, hwh, hw, hdvd, htr⟩
  | some pos =>
    obtain ⟨px, py⟩ := pos
    have hb := spawn_bound g o.rnd px py hgs hsz hw (hwh ▸ hw) hpos
    dsimp only [Option.getD]
    refine ⟨hgs, hpad, hsz, by dsimp only [update_screen_size]; omega,
      by dsimp only [update_screen_size]; omega, ?_, ?_⟩
    · dsimp only [update_screen_size]
      rw [hpad]
      omega
    · intro nt hmem
      dsimp only [update_screen_size] at hmem
      rcases mem_dictInsert hmem with hq | hq
      · exact htr nt hq
      · rw [hq]
        exact trainOK_fresh (px, py) o.dir hb.1 hb.2

theorem gameOK_tickTrains (names : List String) :
    ∀ (g : Game) (dead : List String), GameOK g → GameOK (tickTrains g names dead).1 := by
  induction names with
  | nil =>
    intro g dead h
    exact h
  | cons n rest ih =>
    intro g dead h
    rw [tickTrains]
    cases hl : g.trains.lookup n with
    | none => exact ih g dead h
    | some t =>
      dsimp only
      apply ih
      obtain ⟨hgs, hpad, hsz, hwh, hw, hdvd, htr⟩ := h
      refine ⟨hgs, hpad, hsz, hwh, hw, hdvd, ?_⟩
      intro p hp
      rcases mem_dictInsert hp with hq | hq
      · exact htr p hq
      · rw [hq]
        exact trainOK_update t g.passengers g.grid_size (htr (n, t) (mem_of_lookup hl))

theorem gameOK_foldl_remove (fresh : Nat → Passenger) (names : List String) :
    ∀ g : Game, GameOK g →
      GameOK (names.foldl (fun h n => remove_train h n fresh) g) := by
  induction names with
  | nil => exact fun g h => h
  | cons n rest ih =>
    intro g h
    exact ih _ (gameOK_remove g n fresh h)

theorem gameOK_update (g : Game) (fresh : Nat → Passenger) (h : GameOK g) :
    GameOK (Game.update g fresh) := by
  unfold Game.update
  split
  · exact h
  · exact gameOK_foldl_remove fresh (tickTrains g (g.trains.map Prod.fst) []).2
      (tickTrains g (g.trains.map Prod.fst) []).1
      (gameOK_tickTrains (g.trains.map Prod.fst) g [] h)

theorem gameOK_reachable (g : Game) (h : Reachable g) : GameOK g := by
  induction h with
  | init => exact gameOK_init
  | add g name o _ ih => exact gameOK_add g name o ih
  | remove g name fresh _ ih => exact gameOK_remove g name fresh ih
  | tick g fresh _ ih => exact gameOK_update g fresh ih

/-- Claim C1: in every engine state reachable by any sequence of
add_train, remove_train and update calls, the world width and height
stay at or above the original minimum dimensions 200 x 200, positive
and divisible by grid_size; they never shrink below the original
minimums.  The key step is that a shrink below 200 would need every
train clear of the band at coordinate 50, while under these operations
(no direction change) every train keeps one coordinate at or above its
spawn floor of 60. -/
theorem C1_world_bounds (g : Game) (h : Reachable g) :
    ORIGINAL_SCREEN_WIDTH ≤ g.screen_width ∧
    ORIGINAL_SCREEN_HEIGHT ≤ g.screen_height ∧
    0 < g.screen_width ∧ 0 < g.screen_height ∧
    g.grid_size ∣ g.screen_width ∧ g.grid_size ∣ g.screen_height := by
  obtain ⟨hgs, hpad, hsz, hwh, hw, hdvd, htr⟩ := gameOK_reachable g h
  rw [hgs, ORIGINAL_SCREEN_WIDTH, ORIGINAL_SCREEN_HEIGHT]
  refine ⟨hw, by omega, by omega, by omega, ?_, ?_⟩ <;> omega

/-- Witness for C1: the initial state is reachable and satisfies the
bounds invariant. -/
theorem C1_world_bounds_witness :
    ORIGINAL_SCREEN_WIDTH ≤ Game.init.screen_width ∧
    ORIGINAL_SCREEN_HEIGHT ≤ Game.init.screen_height ∧
    0 < Game.init.screen_width ∧ 0 < Game.init.screen_height ∧
    Game.init.grid_size ∣ Game.init.screen_width ∧
    Game.init.grid_size ∣ Game.init.screen_height :=
  C1_world_bounds Game.init Reachable.init
